import Mathlib

/-!
Verification of the event-upload core of the scalyr agent
(src/scalyr_agent/scalyr_client.py): the AddEventsRequest batch builder,
the process-wide monotonic timestamp generator, and the ScalyrClientSession
send/close protocol.  Python state is passed explicitly; byte buffers are
List Char; machine integers are Int/Nat; fallible operations return Except.
-/

/-- Errors raised by the Python code.  attributeError models using a method of
a field that has been set to None (e.g. buffer.tell() after get_payload set
self.buffer to None); assertionError models a failed assert statement. -/
inductive PyError where
  | attributeError : PyError
  | assertionError : PyError
deriving DecidableEq

/-- Modelled from the spec: json values handled by the repository's
scalyr_agent.json_lib module (not under src/), "a JSON encode/decode
capability ... with standard semantics: object/array/string/number
encoding". -/
inductive JValue where
  | jstr : String → JValue
  | jnum : Int → JValue
  | jarr : List JValue → JValue
  | jobj : List (String × JValue) → JValue

/-- Escaping of one character inside a serialized JSON string. -/
def escapeChar (c : Char) : List Char :=
  if c == '"' then [ '\\', '"' ]
  else if c == '\\' then [ '\\', '\\' ]
  else [c]

/-- Serialization of a JSON string, with surrounding quotes. -/
def serString (s : String) : List Char :=
  '"' :: (s.toList.flatMap escapeChar) ++ [ '"' ]

mutual

/-- Modelled from the spec: json_lib.serialize of the repository (not under
src/), assumed "standard semantics: object/array/string/number encoding";
emits no whitespace, objects end with a closing brace. -/
def jserialize : JValue → List Char
  | JValue.jstr s => serString s
  | JValue.jnum n => (toString n).toList
  | JValue.jarr xs => '[' :: jserializeArr xs ++ [ ']' ]
  | JValue.jobj fs => '\x7b' :: jserializeFields fs ++ [ '\x7d' ]

/-- Comma-separated serialization of the elements of a JSON array. -/
def jserializeArr : List JValue → List Char
  | [] => []
  | [x] => jserialize x
  | x :: y :: rest => jserialize x ++ ',' :: jserializeArr (y :: rest)

/-- Comma-separated serialization of the fields of a JSON object. -/
def jserializeFields : List (String × JValue) → List Char
  | [] => []
  | [(k, v)] => serString k ++ ':' :: jserialize v
  | (k, v) :: f :: rest =>
      serString k ++ ':' :: jserialize v ++ ',' :: jserializeFields (f :: rest)

end

/-- Python dict assignment d[k] = v on a dict modelled as an association
list: replace the value of an existing key in place, else append the pair. -/
def setField : List (String × JValue) → String → JValue → List (String × JValue)
  | [], k, v => [(k, v)]
  | (k0, v0) :: rest, k, v =>
      if k0 == k then (k0, v) :: rest else (k0, v0) :: setField rest k v

/-- Python key containment k in d for a dict modelled as an association
list. -/
def hasKey (fields : List (String × JValue)) (k : String) : Bool :=
  fields.any (fun f => f.1 == k)

/-!  The process-wide monotonic timestamp generator.

Source: AddEventsRequest.__get_timestamp and the global __last_time_stamp__
(scalyr_client.py lines 613-624, 661).  The global is passed explicitly as
an Option Int (None before the first event is ever stamped); the value of
long(time.time() * 1000000000L) at the moment of the call is the clockNs
argument, so a mocked constant or decreasing wall clock is just an arbitrary
argument sequence.  -/

/-- One call of AddEventsRequest.__get_timestamp: take the wall clock in
nanoseconds; if it is not strictly greater than the last issued timestamp,
use last issued + 1; store and return the result. -/
def nextTimestamp (clockNs : Int) (lastTimeStamp : Option Int) : Int × Option Int :=
  let base :=
    match lastTimeStamp with
    | some l => if clockNs ≤ l then l + 1 else clockNs
    | none => clockNs
  (base, some base)

/-- Issue one timestamp per clock reading in the list, threading the
process-wide generator state; returns the issued timestamps in order plus
the final state. -/
def issueTimestamps : List Int → Option Int → List Int × Option Int
  | [], g => ([], g)
  | c :: rest, g =>
      let (t, g1) := nextTimestamp c g
      let (ts, g2) := issueTimestamps rest g1
      (t :: ts, g2)

/-!  The AddEventsRequest batch builder (scalyr_client.py lines 400-657). -/

/-- State of an AddEventsRequest.  buffer is the cStringIO buffer (None after
get_payload has closed it); body is the cached serialized payload (None until
get_payload).  clientTime models the float client_time as whole seconds, so
the source's int(client_time) truncation is the identity. -/
structure AddEventsRequest where
  clientTime : Int
  threads : List (String × String)
  buffer : Option (List Char)
  maxSize : Nat
  currentSize : Nat
  eventsAdded : Nat
  body : Option (List Char)
deriving DecidableEq

/-- AddEventsRequest.__get_post_fix: the literal
'], threads: THREADS, client_time: TIMESTAMP \x7d' with TIMESTAMP replaced by
str(int(client_time)) and THREADS replaced by json_lib.serialize(threads).
Each placeholder occurs exactly once and the replacement values cannot
contain the other placeholder by the time it is substituted, so the two
str.replace calls are exactly this concatenation. -/
def postFixOf (threads : List (String × String)) (clientTime : Int) : List Char :=
  ( "], threads: ").toList ++
    jserialize (JValue.jarr (threads.map fun t =>
      JValue.jobj [( "id", JValue.jstr t.1), ( "name", JValue.jstr t.2)])) ++
    ( ", client_time: ").toList ++ (toString clientTime).toList ++ ( " \x7d").toList

/-- One step of the backwards while loops in AddEventsRequest.__init__:
starting just past index start, walk backwards until a character satisfying p
is found and return its index, or 0 if the walk reaches the front. -/
def scanBack (buf : List Char) (p : Char → Bool) : Nat → Nat
  | 0 => 0
  | i + 1 => if p (buf.getD i ' ') then i else scanBack buf p i

/-- The textual surgery of AddEventsRequest.__init__ on the serialized
base_body: find the last closing brace, back up to the last preceding
non-whitespace character, back over a trailing comma if that is what it is,
truncate just after it, and append the opening of the events array. -/
def chopBase (buf : List Char) : List Char :=
  let locBrace := scanBack buf (fun c => c == '\x7d') buf.length
  let locChar := scanBack buf (fun c => ¬ c.isWhitespace) locBrace
  let loc := if locChar > 0 ∧ buf.getD locChar ' ' == ',' then locChar - 1 else locChar
  buf.take (loc + 1) ++ ( ", events: [").toList

/-- AddEventsRequest.__init__ (lines 411-483): assert base_body non-empty and
free of the keys events and client_time; serialize it, chop it open, append
the events array opening; current_size is the buffer length plus the length
of the post fix for an empty thread list.  clientTime is the time.time()
value at construction, passed explicitly. -/
def initRequest (baseBody : List (String × JValue)) (clientTime : Int)
    (maxSize : Nat) : Except PyError AddEventsRequest :=
  if baseBody.length > 0 ∧ ¬ hasKey baseBody "events" ∧
      ¬ hasKey baseBody "client_time" then
    let buf := chopBase (jserialize (JValue.jobj baseBody))
    Except.ok
      { clientTime := clientTime
        threads := []
        buffer := some buf
        maxSize := maxSize
        currentSize := buf.length + (postFixOf [] clientTime).length
        eventsAdded := 0
        body := none }
  else Except.error PyError.assertionError

/-- AddEventsRequest.add_thread (lines 485-514): append the thread
descriptor, measure how much the post fix grew, and pop it back off if the
total would exceed max_size. -/
def addThread (r : AddEventsRequest) (threadId threadName : String) :
    Bool × AddEventsRequest :=
  let originalSize := (postFixOf r.threads r.clientTime).length
  let newThreads := r.threads ++ [(threadId, threadName)]
  let addedSize := (postFixOf newThreads r.clientTime).length - originalSize
  if r.currentSize + addedSize > r.maxSize then
    (false, { r with threads := newThreads.dropLast })
  else
    (true, { r with threads := newThreads,
                    currentSize := r.currentSize + addedSize })

/-- AddEventsRequest.add_event (lines 516-549).  The first statement
buffer.tell() raises if the buffer was closed by get_payload.  Otherwise:
remember the write position, add a separating comma if an event precedes,
stamp the event's ts field with the explicit timestamp or one consumed from
the process-wide generator, serialize the event into the buffer, and if the
total would exceed max_size truncate the buffer back to the remembered
position and report False.  Returns (accepted, new builder state, the
caller's event as mutated, new generator state). -/
def addEvent (r : AddEventsRequest) (event : List (String × JValue))
    (timestamp : Option Int) (clockNs : Int) (gen : Option Int) :
    Except PyError (Bool × AddEventsRequest × List (String × JValue) × Option Int) :=
  match r.buffer with
  | none => Except.error PyError.attributeError
  | some buf =>
      let startPos := buf.length
      let buf1 := if r.eventsAdded > 0 then buf ++ [ ',' ] else buf
      let (ts, gen1) :=
        match timestamp with
        | some t => (t, gen)
        | none => nextTimestamp clockNs gen
      let event1 := setField event "ts" (JValue.jstr (toString ts))
      let buf2 := buf1 ++ jserialize (JValue.jobj event1)
      let size := buf2.length - startPos
      if r.currentSize + size > r.maxSize then
        Except.ok (false, { r with buffer := some (buf2.take startPos) }, event1, gen1)
      else
        Except.ok (true,
          { r with buffer := some buf2,
                   currentSize := r.currentSize + size,
                   eventsAdded := r.eventsAdded + 1 }, event1, gen1)

/-- AddEventsRequest.set_client_time (lines 551-580): if the payload has
already been cached, drop the old post fix from its end and append the post
fix for the new time; always record the new client time. -/
def setClientTime (r : AddEventsRequest) (currentTime : Int) : AddEventsRequest :=
  match r.body with
  | none => { r with clientTime := currentTime }
  | some b =>
      let oldPostFix := postFixOf r.threads r.clientTime
      let newPostFix := postFixOf r.threads currentTime
      let rebuilt := b.take (b.length - oldPostFix.length) ++ newPostFix
      { r with body := some rebuilt, clientTime := currentTime }

/-- AddEventsRequest.get_payload (lines 582-594): on first call append the
post fix to the buffer, cache the result as body and close the buffer;
afterwards return the cached body. -/
def getPayload (r : AddEventsRequest) : Except PyError (List Char × AddEventsRequest) :=
  match r.body with
  | some b => Except.ok (b, r)
  | none =>
      match r.buffer with
      | none => Except.error PyError.attributeError
      | some buf =>
          let b := buf ++ postFixOf r.threads r.clientTime
          Except.ok (b, { r with body := some b, buffer := none })

/-- AddEventsRequest.Position (lines 650-657). -/
structure Position where
  current_size : Nat
  events_added : Nat
  buffer_size : Nat
  thread_count : Nat
deriving DecidableEq

/-- AddEventsRequest.position (lines 631-636): snapshot of current size,
events added, buffer write offset and thread count; buffer.tell() raises on
a closed buffer. -/
def position (r : AddEventsRequest) : Except PyError Position :=
  match r.buffer with
  | none => Except.error PyError.attributeError
  | some buf =>
      Except.ok ⟨r.currentSize, r.eventsAdded, buf.length, r.threads.length⟩

/-- AddEventsRequest.set_position (lines 638-648): restore the size and
event count, truncate the buffer to the recorded offset, check the recorded
thread count against the current list (the source asserts after mutating the
buffer; only the non-failing path is exercised here) and truncate the thread
list. -/
def setPosition (r : AddEventsRequest) (p : Position) :
    Except PyError AddEventsRequest :=
  match r.buffer with
  | none => Except.error PyError.attributeError
  | some buf =>
      if p.thread_count ≤ r.threads.length then
        Except.ok
          { r with currentSize := p.current_size,
                   eventsAdded := p.events_added,
                   buffer := some (buf.take p.buffer_size),
                   threads := r.threads.take p.thread_count }
      else Except.error PyError.assertionError

/-- One builder call in a call sequence: an add_event call carrying the
caller's event, the optional explicit timestamp and the wall clock reading
at the call, or an add_thread call. -/
inductive BuilderOp where
  | ev : List (String × JValue) → Option Int → Int → BuilderOp
  | th : String → String → BuilderOp

/-- Run a sequence of add_event / add_thread calls against a builder,
threading the process-wide generator state.  An add_event call that raises
aborts the run (it cannot raise on a live builder). -/
def runOps : AddEventsRequest → Option Int → List BuilderOp →
    AddEventsRequest × Option Int
  | r, g, [] => (r, g)
  | r, g, BuilderOp.ev e tsOpt clock :: rest =>
      match addEvent r e tsOpt clock g with
      | Except.ok (_, r1, _, g1) => runOps r1 g1 rest
      | Except.error _ => (r, g)
  | r, g, BuilderOp.th tid tname :: rest =>
      let (_, r1) := addThread r tid tname
      runOps r1 g rest

/-- Run a sequence of add_event calls that all let the generator stamp the
event (timestamp argument None), each with its own wall clock reading, and
collect the timestamps stamped on the events that were accepted (the
generator state after the call is exactly the stamped value). -/
def runAddEvents : AddEventsRequest → Option Int →
    List (List (String × JValue) × Int) → AddEventsRequest × Option Int × List Int
  | r, g, [] => (r, g, [])
  | r, g, (e, clock) :: rest =>
      match addEvent r e none clock g with
      | Except.ok (accepted, r1, _, g1) =>
          let (rF, gF, ts) := runAddEvents r1 g1 rest
          match accepted, g1 with
          | true, some t => (rF, gF, t :: ts)
          | _, _ => (rF, gF, ts)
      | Except.error _ => (r, g, [])

/-!  The ScalyrClientSession send/close protocol (scalyr_client.py lines
45-341).  The request being sent is abstracted to its payload bytes; the
repository's json_lib.parse (not under src/) is a parameter; times are Int
seconds; the network's behaviour during the attempt is an explicit input. -/

/-- The mutable state of a ScalyrClientSession that send and close touch:
whether a connection object is currently held, the recorded time of the last
connection close, the time of the last successful parse, and the traffic
counters (lines 96-129). -/
structure ScalyrClientSession where
  connection : Bool
  lastConnectionClose : Option Int
  lastSuccess : Option Int
  totalRequestsSent : Nat
  totalRequestsFailed : Nat
  totalRequestBytesSent : Nat
  totalResponseBytesReceived : Nat
  totalRequestLatencySecs : Int
  totalConnectionsCreated : Nat
deriving DecidableEq

/-- ScalyrClientSession.close (lines 302-313): if a connection is held,
drop it and record the close time; otherwise do nothing. -/
def sessionClose (s : ScalyrClientSession) (currentTime : Int) : ScalyrClientSession :=
  if s.connection then
    { s with connection := false, lastConnectionClose := some currentTime }
  else s

/-- What the environment does during one send attempt: whether connect()
succeeds if a connection has to be opened, and either the full response body
read from the wire or none if writing the request or reading the response
raises. -/
structure NetBehavior where
  connectOk : Bool
  response : Option (List Char)

/-- The cooldown guard at the top of send (lines 163-164): a last close is
recorded and it happened less than 30 seconds before current_time. -/
def cooldownActive (s : ScalyrClientSession) (currentTime : Int) : Bool :=
  match s.lastConnectionClose with
  | some c => currentTime - c < 30
  | none => false

/-- The finally block of send (lines 295-300): add the elapsed time to the
latency counter; when the attempt was not a success, bump the failure
counter and close the connection with the attempt's start time; add the
bytes received to the response byte counter. -/
def sendFinally (s : ScalyrClientSession) (currentTime elapsed : Int)
    (wasSuccess : Bool) (bytesReceived : Nat) : ScalyrClientSession :=
  let s1 := { s with totalRequestLatencySecs := s.totalRequestLatencySecs + elapsed }
  let s2 :=
    if wasSuccess then s1
    else sessionClose
      { s1 with totalRequestsFailed := s1.totalRequestsFailed + 1 } currentTime
  { s2 with totalResponseBytesReceived := s2.totalResponseBytesReceived + bytesReceived }

/-- ScalyrClientSession.send (lines 146-300).  parse models
json_lib.parse restricted to what send inspects: an association list of
string fields (none when parsing raises).  Returns the new session state and
the (status, bytes sent, response body) triple the source returns.  Control
flow follows the source: the cooldown guard returns before any counter is
touched; the requests-sent counter is bumped; if no connection is held one
is constructed (so the finally block's close sees it) and connect() either
fails -- classified connectionFailed with nothing sent -- or succeeds and
bumps the connections-created counter; the payload length is added to the
request byte counter; then the request/response step and the response
classification, every exit of which passes through the finally block. -/
def sessionSend (parse : List Char → Option (List (String × String)))
    (s : ScalyrClientSession) (currentTime : Int) (payload : List Char)
    (net : NetBehavior) (elapsed : Int) :
    ScalyrClientSession × String × Nat × List Char :=
  if cooldownActive s currentTime then
    (s, "client/connectionClosed", 0, [])
  else
    let s1 := { s with totalRequestsSent := s.totalRequestsSent + 1 }
    if !s1.connection && !net.connectOk then
      (sendFinally { s1 with connection := true } currentTime elapsed false 0,
        "client/connectionFailed", 0, [])
    else
      let s2 :=
        if s1.connection then s1
        else { s1 with connection := true,
                       totalConnectionsCreated := s1.totalConnectionsCreated + 1 }
      let s3 := { s2 with
        totalRequestBytesSent := s2.totalRequestBytesSent + payload.length }
      match net.response with
      | none =>
          (sendFinally s3 currentTime elapsed false 0,
            "requestFailed", payload.length, [])
      | some resp =>
          if resp.length = 0 then
            (sendFinally s3 currentTime elapsed false resp.length,
              "emptyResponse", payload.length, resp)
          else
            match parse resp with
            | none =>
                (sendFinally s3 currentTime elapsed false resp.length,
                  "parseResponseFailed", payload.length, resp)
            | some obj =>
                let s4 := { s3 with lastSuccess := some currentTime }
                match List.lookup "status" obj with
                | some status =>
                    (sendFinally s4 currentTime elapsed (status == "success")
                        resp.length, status, payload.length, resp)
                | none =>
                    (sendFinally s4 currentTime elapsed false resp.length,
                      "unknownError", payload.length, resp)

/-!  Concrete instances used by the witness theorems. -/

/-- A sample base body (a token field only). -/
def sampleBase : List (String × JValue) := [( "token", JValue.jstr "T")]

/-- Fallback builder value (never reached by the concrete constructions). -/
def fallbackRequest : AddEventsRequest :=
  { clientTime := 0, threads := [], buffer := none, maxSize := 0,
    currentSize := 0, eventsAdded := 0, body := none }

/-- A freshly constructed builder with a generous size ceiling. -/
def sampleRequest : AddEventsRequest :=
  match initRequest sampleBase 100 1000 with
  | Except.ok r => r
  | Except.error _ => fallbackRequest

/-- A freshly constructed builder whose size ceiling is already exceeded by
the scaffold, so every append is rejected. -/
def tinyRequest : AddEventsRequest :=
  match initRequest sampleBase 100 1 with
  | Except.ok r => r
  | Except.error _ => fallbackRequest

/-- The sample builder after get_payload has been invoked (buffer closed,
payload cached). -/
def finalizedRequest : AddEventsRequest :=
  match getPayload sampleRequest with
  | Except.ok pr => pr.2
  | Except.error _ => sampleRequest

/-- A session that has never seen any traffic. -/
def freshSession : ScalyrClientSession :=
  { connection := false, lastConnectionClose := none, lastSuccess := none,
    totalRequestsSent := 0, totalRequestsFailed := 0, totalRequestBytesSent := 0,
    totalResponseBytesReceived := 0, totalRequestLatencySecs := 0,
    totalConnectionsCreated := 0 }

/-- A session whose connection was closed at time 100. -/
def recentlyClosedSession : ScalyrClientSession :=
  { freshSession with lastConnectionClose := some 100 }

/-!  Helper lemmas. -/

/-- A generated timestamp strictly exceeds the previously issued one. -/
theorem nextTimestamp_fst_gt (c l : Int) : l < (nextTimestamp c (some l)).1 := by
  simp only [nextTimestamp]
  split <;> omega

/-- The generator state after a call is exactly the issued timestamp. -/
theorem nextTimestamp_snd (c : Int) (g : Option Int) :
    (nextTimestamp c g).2 = some (nextTimestamp c g).1 := by
  cases g <;> rfl

/-- Every timestamp issued after state some l strictly exceeds l. -/
theorem issueTimestamps_lb (clocks : List Int) :
    ∀ (l t : Int), t ∈ (issueTimestamps clocks (some l)).1 → l < t := by
  induction clocks with
  | nil => intro l t h; simp [issueTimestamps] at h
  | cons c rest ih =>
      intro l t h
      simp only [issueTimestamps, nextTimestamp] at h
      rcases List.mem_cons.mp h with h1 | h1
      · subst h1
        have := nextTimestamp_fst_gt c l
        simpa [nextTimestamp] using this
      · have h2 := ih ((nextTimestamp c (some l)).1) t (by simpa [nextTimestamp] using h1)
        exact lt_trans (nextTimestamp_fst_gt c l) h2

/-- The timestamps issued by any sequence of generator calls are pairwise
strictly increasing, whatever the clock readings and starting state. -/
theorem issueTimestamps_pairwise (clocks : List Int) (g : Option Int) :
    List.Pairwise (· < ·) (issueTimestamps clocks g).1 := by
  induction clocks generalizing g with
  | nil => simp [issueTimestamps]
  | cons c rest ih =>
      simp only [issueTimestamps]
      rw [nextTimestamp_snd]
      refine List.pairwise_cons.mpr ⟨?_, ih (some (nextTimestamp c g).1)⟩
      intro t ht
      exact issueTimestamps_lb rest _ t ht

/-- An add_event call that lets the generator stamp the event leaves the
generator state at exactly the issued timestamp, and returns the caller's
event with its ts field set to that timestamp's decimal string. -/
theorem addEvent_gen_state (r : AddEventsRequest) (e : List (String × JValue))
    (clock : Int) (g : Option Int) (acc : Bool) (r1 : AddEventsRequest)
    (e1 : List (String × JValue)) (g1 : Option Int)
    (h : addEvent r e none clock g = Except.ok (acc, r1, e1, g1)) :
    g1 = some (nextTimestamp clock g).1 ∧
    e1 = setField e "ts" (JValue.jstr (toString (nextTimestamp clock g).1)) := by
  rcases hb : r.buffer with _ | buf
  · rw [addEvent, hb] at h
    exact absurd h (by simp)
  · rw [addEvent, hb] at h
    simp only at h
    rw [nextTimestamp_snd] at h
    split at h <;> split at h
    all_goals
      simp only [Except.ok.injEq, Prod.mk.injEq] at h
      exact ⟨h.2.2.2.symm, h.2.2.1.symm⟩

/-- Every timestamp stamped on an accepted event after generator state
some l strictly exceeds l. -/
theorem runAddEvents_lb (calls : List (List (String × JValue) × Int)) :
    ∀ (r : AddEventsRequest) (l t : Int),
    t ∈ (runAddEvents r (some l) calls).2.2 → l < t := by
  induction calls with
  | nil => intro r l t h; simp [runAddEvents] at h
  | cons hd rest ih =>
      intro r l t h
      obtain ⟨e, c⟩ := hd
      rw [runAddEvents] at h
      rcases hae : addEvent r e none c (some l) with err | ok
      · rw [hae] at h; simp at h
      · obtain ⟨acc, r1, e1, g1⟩ := ok
        rw [hae] at h
        obtain ⟨hg, -⟩ := addEvent_gen_state r e c (some l) acc r1 e1 g1 hae
        subst hg
        simp only at h
        rcases hrun : runAddEvents r1 (some (nextTimestamp c (some l)).1) rest
          with ⟨rF, gF, ts⟩
        rw [hrun] at h
        have hlb : ∀ u ∈ ts, (nextTimestamp c (some l)).1 < u := by
          intro u hu
          have := ih r1 ((nextTimestamp c (some l)).1) u
          rw [hrun] at this
          exact this hu
        cases acc with
        | false =>
            simp only at h
            exact lt_trans (nextTimestamp_fst_gt c l) (hlb t h)
        | true =>
            simp only at h
            rcases List.mem_cons.mp h with h1 | h1
            · subst h1; exact nextTimestamp_fst_gt c l
            · exact lt_trans (nextTimestamp_fst_gt c l) (hlb t h1)

/-- The timestamps stamped on the accepted events of any add_event call
sequence are pairwise strictly increasing. -/
theorem runAddEvents_pairwise (calls : List (List (String × JValue) × Int)) :
    ∀ (r : AddEventsRequest) (g : Option Int),
    List.Pairwise (· < ·) (runAddEvents r g calls).2.2 := by
  induction calls with
  | nil => intro r g; simp [runAddEvents]
  | cons hd rest ih =>
      intro r g
      obtain ⟨e, c⟩ := hd
      rw [runAddEvents]
      rcases hae : addEvent r e none c g with err | ok
      · simp
      · obtain ⟨acc, r1, e1, g1⟩ := ok
        obtain ⟨hg, -⟩ := addEvent_gen_state r e c g acc r1 e1 g1 hae
        subst hg
        simp only
        rcases hrun : runAddEvents r1 (some (nextTimestamp c g).1) rest
          with ⟨rF, gF, ts⟩
        have hts : List.Pairwise (· < ·) ts := by
          have := ih r1 (some (nextTimestamp c g).1)
          rw [hrun] at this
          exact this
        cases acc with
        | false => exact hts
        | true =>
            refine List.pairwise_cons.mpr ⟨?_, hts⟩
            intro u hu
            have := runAddEvents_lb rest r1 ((nextTimestamp c g).1) u
            rw [hrun] at this
            exact this hu

/-- Claim C1: every timestamp issued by the process-wide generator is a
strictly greater integer than every previously issued one, whatever the
wall-clock readings (constant or decreasing included); hence for any
sequence of add_event calls that let the generator stamp the event, the
timestamps stamped on the accepted events are strictly increasing in call
order. -/
theorem generator_timestamps_strictly_increase
    (clocks : List Int) (g : Option Int) (r : AddEventsRequest)
    (calls : List (List (String × JValue) × Int)) :
    List.Pairwise (· < ·) (issueTimestamps clocks g).1 ∧
    List.Pairwise (· < ·) (runAddEvents r g calls).2.2 :=
  ⟨issueTimestamps_pairwise clocks g, runAddEvents_pairwise calls r g⟩

/-- Claim C2: an add_event or add_thread call that returns False because
committing it would push the serialized size over max_size leaves the
builder (event count, thread list, size estimate and buffer contents)
exactly as it was before the call. -/
theorem rejected_append_leaves_builder_unchanged
    (r : AddEventsRequest) (event : List (String × JValue)) (tsOpt : Option Int)
    (clockNs : Int) (gen : Option Int) (tid tname : String)
    {r1 : AddEventsRequest} {e1 : List (String × JValue)} {g1 : Option Int}
    {r2 : AddEventsRequest}
    (hev : addEvent r event tsOpt clockNs gen = Except.ok (false, r1, e1, g1))
    (hth : addThread r tid tname = (false, r2)) :
    r1 = r ∧ r2 = r := by
  constructor
  · rcases hb : r.buffer with _ | buf
    · rw [addEvent.eq_def, hb] at hev
      exact absurd hev (by simp)
    · rw [addEvent.eq_def, hb] at hev
      simp only at hev
      split at hev <;> split at hev
      all_goals simp only [Except.ok.injEq, Prod.mk.injEq] at hev
      case isTrue.isTrue =>
        rw [← hev.2.1, List.append_assoc, List.take_left, ← hb]
      case isTrue.isFalse => exact absurd hev.1 (by simp)
      case isFalse.isTrue =>
        rw [← hev.2.1, List.take_left, ← hb]
      case isFalse.isFalse => exact absurd hev.1 (by simp)
  · rw [addThread.eq_def] at hth
    simp only at hth
    split at hth
    · simp only [Prod.mk.injEq] at hth
      rw [← hth.2, List.dropLast_concat]
    · exact absurd hth (by simp)

/-- Witness for C2: on the tiny builder both a concrete add_event call and a
concrete add_thread call are rejected, and each leaves the builder equal to
its pre-call value. -/
theorem rejected_append_unchanged_witness :
    tinyRequest = tinyRequest ∧ tinyRequest = tinyRequest :=
  rejected_append_leaves_builder_unchanged tinyRequest
    [( "msg", JValue.jstr "hello")] none 5 none "1" "w" rfl rfl

/-- Claim C10: an add_event call with no explicit timestamp, accepted or
rejected, returns the caller's event with its ts key set to the decimal
string of the timestamp consumed from the process-wide generator, and leaves
the generator's last-issued state at that timestamp, which strictly exceeds
the previous last-issued value. -/
theorem rejected_add_event_still_stamps_event
    (r : AddEventsRequest) (event : List (String × JValue)) (clockNs : Int)
    (gen : Option Int) {acc : Bool} {r1 : AddEventsRequest}
    {e1 : List (String × JValue)} {g1 : Option Int}
    (h : addEvent r event none clockNs gen = Except.ok (acc, r1, e1, g1)) :
    e1 = setField event "ts" (JValue.jstr (toString (nextTimestamp clockNs gen).1)) ∧
    g1 = some (nextTimestamp clockNs gen).1 ∧
    ∀ l, gen = some l → l < (nextTimestamp clockNs gen).1 := by
  obtain ⟨hg, he⟩ := addEvent_gen_state r event clockNs gen acc r1 e1 g1 h
  refine ⟨he, hg, ?_⟩
  intro l hl
  subst hl
  exact nextTimestamp_fst_gt clockNs l

/-- Witness for C10: a concrete rejected add_event call on the tiny builder
(generator last at 7, clock at 5) stamps ts with 8 and advances the
generator past 7. -/
theorem rejected_add_event_stamps_witness :
    [( "ts", JValue.jstr "8")] =
      setField [] "ts" (JValue.jstr (toString (nextTimestamp 5 (some 7)).1)) ∧
    (some 8 : Option Int) = some (nextTimestamp 5 (some 7)).1 ∧
    (7 : Int) < (nextTimestamp 5 (some 7)).1 := by
  have h := rejected_add_event_still_stamps_event tinyRequest [] 5 (some 7)
    (rfl :
      addEvent tinyRequest [] none 5 (some 7) =
        Except.ok (false, tinyRequest, [( "ts", JValue.jstr "8")], some 8))
  exact ⟨h.1, h.2.1, h.2.2 7 rfl⟩

/-- Claim C3: a send invoked less than 30 seconds after the recorded last
connection close returns immediately with the connectionClosed status (the
source string is client/connectionClosed), zero bytes sent and an empty
response body, and leaves the session state -- connection, all counters,
connections created included -- completely untouched. -/
theorem cooldown_short_circuits_send
    (parse : List Char → Option (List (String × String)))
    (s : ScalyrClientSession) (c currentTime : Int) (payload : List Char)
    (net : NetBehavior) (elapsed : Int)
    (hc : s.lastConnectionClose = some c) (hlt : currentTime - c < 30) :
    sessionSend parse s currentTime payload net elapsed =
      (s, "client/connectionClosed", 0, []) := by
  rw [sessionSend.eq_def]
  have hcool : cooldownActive s currentTime = true := by
    simp [cooldownActive, hc, hlt]
  rw [hcool]
  simp

/-- Witness for C3: a concrete send 10 seconds after a close at time 100
returns the short-circuit triple and the unchanged session. -/
theorem cooldown_short_circuit_witness :
    sessionSend (fun _ => none) recentlyClosedSession 110 [] ⟨true, some []⟩ 0 =
      (recentlyClosedSession, "client/connectionClosed", 0, []) :=
  cooldown_short_circuits_send (fun _ => none) recentlyClosedSession 100 110 []
    ⟨true, some []⟩ 0 rfl (by decide)

/-- Claim C4: a send that reaches the response-reading step classifies the
response exactly as: empty body gives emptyResponse; a body json_lib.parse
rejects gives parseResponseFailed; a parsed body with no status field gives
unknownError; otherwise the status field's value is returned verbatim. -/
theorem send_classifies_response
    (parse : List Char → Option (List (String × String)))
    (s : ScalyrClientSession) (currentTime : Int) (payload : List Char)
    (net : NetBehavior) (elapsed : Int) (resp : List Char)
    (hcool : cooldownActive s currentTime = false)
    (hconn : s.connection = true ∨ net.connectOk = true)
    (hresp : net.response = some resp) :
    (sessionSend parse s currentTime payload net elapsed).2.1 =
      (if resp.length = 0 then "emptyResponse"
       else
         match parse resp with
         | none => "parseResponseFailed"
         | some obj =>
             match List.lookup "status" obj with
             | some status => status
             | none => "unknownError") := by
  have hguard : (!s.connection && !net.connectOk) = false := by
    rcases hconn with h | h <;> simp [h]
  rw [sessionSend.eq_def, hcool]
  simp only [Bool.false_eq_true, if_false, hguard, hresp]
  split
  · rfl
  · split
    · rfl
    · split <;> rfl

/-- Witness for C4: a concrete send whose two-field response parses with a
status field returns that status verbatim. -/
theorem send_classification_witness :
    (sessionSend (fun _ => some [( "status", "e/client/badParam")]) freshSession
        50 [] ⟨true, some [ 'x' ]⟩ 0).2.1 = "e/client/badParam" := by
  have h := send_classifies_response
    (fun _ => some [( "status", "e/client/badParam")]) freshSession 50 []
    ⟨true, some [ 'x' ]⟩ 0 [ 'x' ] rfl (Or.inr rfl) rfl
  simpa using h

/-- The finally block on a failed attempt bumps the failure counter, leaves
the connection closed and does not touch the connections-created counter. -/
theorem sendFinally_failure (s : ScalyrClientSession) (t e : Int) (b : Nat) :
    (sendFinally s t e false b).totalRequestsFailed = s.totalRequestsFailed + 1 ∧
    (sendFinally s t e false b).connection = false ∧
    (sendFinally s t e false b).totalConnectionsCreated = s.totalConnectionsCreated := by
  rcases hc : s.connection <;> simp [sendFinally, sessionClose, hc]

/-- The finally block on a successful attempt leaves the failure counter,
the connection flag and the connections-created counter untouched. -/
theorem sendFinally_success (s : ScalyrClientSession) (t e : Int) (b : Nat) :
    (sendFinally s t e true b).totalRequestsFailed = s.totalRequestsFailed ∧
    (sendFinally s t e true b).connection = s.connection ∧
    (sendFinally s t e true b).totalConnectionsCreated = s.totalConnectionsCreated := by
  simp [sendFinally]

/-- Counterexample to C7 as stated: a send short-circuited by the 30 second
cooldown guard completes with the status client/connectionClosed, which is
not success, yet the requests-failed counter does not increment (the session
is returned unchanged). -/
theorem send_failure_counter_counterexample :
    (sessionSend (fun _ => none) recentlyClosedSession 110 [] ⟨true, some [ 'x' ]⟩
        0).2.1 ≠ "success" ∧
    (sessionSend (fun _ => none) recentlyClosedSession 110 [] ⟨true, some [ 'x' ]⟩
        0).1.totalRequestsFailed = recentlyClosedSession.totalRequestsFailed := by
  constructor
  · decide
  · rfl

/-- C7 as amended: for a send not short-circuited by the 30 second cooldown
guard, a success status leaves the requests-failed counter unchanged and the
connection open, any other status closes the connection and increments the
requests-failed counter by exactly one, and a send that starts with an open
connection never bumps the connections-created counter.  (The cooldown
short-circuit, excluded here, returns a non-success status with no counter
change -- see the counterexample.) -/
theorem send_success_vs_failure_effects
    (parse : List Char → Option (List (String × String)))
    (s : ScalyrClientSession) (currentTime : Int) (payload : List Char)
    (net : NetBehavior) (elapsed : Int)
    (hcool : cooldownActive s currentTime = false) :
    ((sessionSend parse s currentTime payload net elapsed).2.1 = "success" →
      (sessionSend parse s currentTime payload net elapsed).1.totalRequestsFailed =
        s.totalRequestsFailed ∧
      (sessionSend parse s currentTime payload net elapsed).1.connection = true) ∧
    ((sessionSend parse s currentTime payload net elapsed).2.1 ≠ "success" →
      (sessionSend parse s currentTime payload net elapsed).1.totalRequestsFailed =
        s.totalRequestsFailed + 1 ∧
      (sessionSend parse s currentTime payload net elapsed).1.connection = false) ∧
    (s.connection = true →
      (sessionSend parse s currentTime payload net elapsed).1.totalConnectionsCreated =
        s.totalConnectionsCreated) := by
  rw [sessionSend.eq_def, hcool]
  simp only [Bool.false_eq_true, if_false]
  split
  · refine ⟨fun hA => ?_, fun hB => ?_, fun hC => ?_⟩ <;>
      simp_all [sendFinally, sessionClose]
  · split <;> split <;>
      try split
    all_goals try split
    all_goals refine ⟨fun hA => ?_, fun hB => ?_, fun hC => ?_⟩
    all_goals try simp_all [sendFinally, sessionClose]
    all_goals split <;> simp_all

/-- Witness for the amended C7: a concrete successful send leaves the
failure counter at its prior value and the connection open. -/
theorem send_effects_witness :
    (sessionSend (fun _ => some [( "status", "success")]) freshSession 50 []
        ⟨true, some [ 'x' ]⟩ 0).1.totalRequestsFailed =
      freshSession.totalRequestsFailed ∧
    (sessionSend (fun _ => some [( "status", "success")]) freshSession 50 []
        ⟨true, some [ 'x' ]⟩ 0).1.connection = true :=
  (send_success_vs_failure_effects (fun _ => some [( "status", "success")])
      freshSession 50 [] ⟨true, some [ 'x' ]⟩ 0 rfl).1 (by rfl)

/-- Counterexample to C8 as stated: a non-empty base body that contains a
threads key is accepted by the constructor (the source asserts only against
events and client_time; its own add_events_request even passes a threads
entry in the base body). -/
theorem init_accepts_threads_key_counterexample :
    (initRequest [( "threads", JValue.jarr []), ( "token", JValue.jstr "T")]
        100 1000).toOption.isSome = true := by
  rfl

/-- C8 as amended: construction fails with the assertion error exactly when
the base body is empty or contains an events or client_time key; a threads
key is not checked. -/
theorem init_rejects_exactly_empty_events_client_time
    (baseBody : List (String × JValue)) (clientTime : Int) (maxSize : Nat) :
    initRequest baseBody clientTime maxSize = Except.error PyError.assertionError ↔
      (baseBody = [] ∨ hasKey baseBody "events" = true ∨
        hasKey baseBody "client_time" = true) := by
  rw [initRequest.eq_def]
  split
  next h =>
    obtain ⟨h1, h2, h3⟩ := h
    constructor
    · intro hcontra
      exact absurd hcontra (by simp)
    · rintro (he | he | he)
      · rw [he] at h1
        exact absurd h1 (by simp)
      · exact absurd he h2
      · exact absurd he h3
  next h =>
    constructor
    · intro _
      by_cases h1 : baseBody = []
      · exact Or.inl h1
      · by_cases h2 : hasKey baseBody "events" = true
        · exact Or.inr (Or.inl h2)
        · by_cases h3 : hasKey baseBody "client_time" = true
          · exact Or.inr (Or.inr h3)
          · exact absurd ⟨List.length_pos.mpr h1, h2, h3⟩ h
    · intro _
      rfl

/-- Counterexample to C9 as stated: on a builder already finalized by
get_payload, a concrete add_thread call does not fail -- it returns True and
mutates the thread list. -/
theorem add_thread_after_finalize_not_rejected :
    (addThread finalizedRequest "1" "worker").1 = true ∧
    (addThread finalizedRequest "1" "worker").2.threads ≠
      finalizedRequest.threads := by
  constructor
  · rfl
  · decide

/-- C9 as amended: after get_payload has closed the buffer, add_event fails
(the buffer.tell() attribute error realizes the spec's RequestClosed) before
mutating anything, but add_thread is not rejected: when it returns True it
has appended the descriptor to the thread list. -/
theorem add_event_after_finalize_fails
    (r : AddEventsRequest) (event : List (String × JValue)) (tsOpt : Option Int)
    (clockNs : Int) (gen : Option Int) (tid tname : String)
    (h : r.buffer = none) :
    addEvent r event tsOpt clockNs gen = Except.error PyError.attributeError ∧
    ∀ r1, addThread r tid tname = (true, r1) →
      r1.threads = r.threads ++ [(tid, tname)] := by
  constructor
  · rw [addEvent.eq_def, h]
  · intro r1 hth
    rw [addThread.eq_def] at hth
    simp only at hth
    split at hth
    · exact absurd hth (by simp)
    · simp only [Prod.mk.injEq] at hth
      rw [← hth.2]

/-- Witness for the amended C9: on the concrete finalized builder, add_event
raises and a concrete accepted add_thread call has appended its thread. -/
theorem add_event_after_finalize_witness :
    addEvent finalizedRequest [] none 5 none = Except.error PyError.attributeError ∧
    (addThread finalizedRequest "1" "w").2.threads =
      finalizedRequest.threads ++ [( "1", "w")] := by
  have h := add_event_after_finalize_fails finalizedRequest [] none 5 none "1" "w" rfl
  exact ⟨h.1, h.2 (addThread finalizedRequest "1" "w").2 (by rfl)⟩

/-- Frame of one add_event call, accepted or rejected: the buffer only ever
grows (the rejected write is truncated back off), and the thread list,
client time, size ceiling and cached body are untouched. -/
theorem addEvent_state (r : AddEventsRequest) (event : List (String × JValue))
    (tsOpt : Option Int) (clockNs : Int) (gen : Option Int) (buf : List Char)
    (acc : Bool) (r1 : AddEventsRequest) (e1 : List (String × JValue))
    (g1 : Option Int) (hb : r.buffer = some buf)
    (h : addEvent r event tsOpt clockNs gen = Except.ok (acc, r1, e1, g1)) :
    (∃ ext, r1.buffer = some (buf ++ ext)) ∧ r1.threads = r.threads ∧
    r1.clientTime = r.clientTime ∧ r1.maxSize = r.maxSize ∧ r1.body = r.body := by
  rw [addEvent.eq_def, hb] at h
  simp only at h
  split at h <;> split at h
  all_goals simp only [Except.ok.injEq, Prod.mk.injEq] at h
  all_goals obtain ⟨-, hr, -, -⟩ := h
  all_goals subst hr
  case isTrue.isTrue =>
    exact ⟨⟨[], by rw [List.append_assoc, List.take_left, List.append_nil]⟩,
      rfl, rfl, rfl, rfl⟩
  case isTrue.isFalse =>
    exact ⟨⟨_, by rw [List.append_assoc]⟩, rfl, rfl, rfl, rfl⟩
  case isFalse.isTrue =>
    exact ⟨⟨[], by rw [List.take_left, List.append_nil]⟩, rfl, rfl, rfl, rfl⟩
  case isFalse.isFalse =>
    exact ⟨⟨_, rfl⟩, rfl, rfl, rfl, rfl⟩

/-- Frame of one add_thread call, accepted or rejected: the thread list only
ever grows (the rejected append is popped back off), and the buffer, client
time, size ceiling and cached body are untouched. -/
theorem addThread_state (r : AddEventsRequest) (tid tname : String)
    (ok1 : Bool) (r1 : AddEventsRequest)
    (h : addThread r tid tname = (ok1, r1)) :
    (∃ textra, r1.threads = r.threads ++ textra) ∧
    r1.buffer = r.buffer ∧ r1.clientTime = r.clientTime ∧
    r1.maxSize = r.maxSize ∧ r1.body = r.body := by
  rw [addThread.eq_def] at h
  simp only at h
  split at h
  all_goals simp only [Prod.mk.injEq] at h
  all_goals obtain ⟨-, hr⟩ := h
  all_goals subst hr
  · exact ⟨⟨[], by rw [List.dropLast_concat, List.append_nil]⟩, rfl, rfl, rfl, rfl⟩
  · exact ⟨⟨[(tid, tname)], rfl⟩, rfl, rfl, rfl, rfl⟩

/-- Unfolding of runOps on the empty call list. -/
theorem runOps_nil (r : AddEventsRequest) (g : Option Int) :
    runOps r g [] = (r, g) := rfl

/-- Unfolding of runOps on a leading add_event call. -/
theorem runOps_ev (r : AddEventsRequest) (g : Option Int)
    (e : List (String × JValue)) (tsOpt : Option Int) (clock : Int)
    (rest : List BuilderOp) :
    runOps r g (BuilderOp.ev e tsOpt clock :: rest) =
      (match addEvent r e tsOpt clock g with
       | Except.ok (_, r1, _, g1) => runOps r1 g1 rest
       | Except.error _ => (r, g)) := rfl

/-- Unfolding of runOps on a leading add_thread call. -/
theorem runOps_th (r : AddEventsRequest) (g : Option Int) (tid tname : String)
    (rest : List BuilderOp) :
    runOps r g (BuilderOp.th tid tname :: rest) =
      (match addThread r tid tname with
       | (_, r1) => runOps r1 g rest) := rfl

/-- Frame of a whole call sequence on a live builder: the buffer and thread
list only grow by suffixes, everything else is untouched. -/
theorem runOps_extends (ops : List BuilderOp) :
    ∀ (r : AddEventsRequest) (g : Option Int) (buf : List Char),
    r.buffer = some buf →
    ∃ ext textra,
      (runOps r g ops).1.buffer = some (buf ++ ext) ∧
      (runOps r g ops).1.threads = r.threads ++ textra ∧
      (runOps r g ops).1.clientTime = r.clientTime ∧
      (runOps r g ops).1.maxSize = r.maxSize ∧
      (runOps r g ops).1.body = r.body := by
  induction ops with
  | nil =>
      intro r g buf hb
      refine ⟨[], [], ?_, ?_, ?_, ?_, ?_⟩ <;> rw [runOps_nil] <;> simp [hb]
  | cons op rest ih =>
      intro r g buf hb
      cases op with
      | ev e tsOpt clock =>
          rcases hae : addEvent r e tsOpt clock g with err | ok
          · refine ⟨[], [], ?_, ?_, ?_, ?_, ?_⟩ <;>
              rw [runOps_ev, hae] <;> simp [hb]
          · obtain ⟨acc, r1, e1, g1⟩ := ok
            obtain ⟨⟨ext1, hbuf⟩, hth, hct, hms, hbd⟩ :=
              addEvent_state r e tsOpt clock g buf acc r1 e1 g1 hb hae
            obtain ⟨ext2, textra2, H1, H2, H3, H4, H5⟩ := ih r1 g1 (buf ++ ext1) hbuf
            refine ⟨ext1 ++ ext2, textra2, ?_, ?_, ?_, ?_, ?_⟩ <;>
              rw [runOps_ev, hae] <;> simp only
            · rw [H1, List.append_assoc]
            · rw [H2, hth]
            · rw [H3, hct]
            · rw [H4, hms]
            · rw [H5, hbd]
      | th tid tname =>
          rcases hth : addThread r tid tname with ⟨ok1, r1⟩
          obtain ⟨⟨textra1, hthr⟩, hbuf, hct, hms, hbd⟩ :=
            addThread_state r tid tname ok1 r1 hth
          have hb1 : r1.buffer = some buf := by rw [hbuf, hb]
          obtain ⟨ext2, textra2, H1, H2, H3, H4, H5⟩ := ih r1 g buf hb1
          refine ⟨ext2, textra1 ++ textra2, ?_, ?_, ?_, ?_, ?_⟩ <;>
            rw [runOps_th, hth] <;> simp only
          · exact H1
          · rw [H2, hthr, List.append_assoc]
          · rw [H3, hct]
          · rw [H4, hms]
          · rw [H5, hbd]

/-- Claim C5: capturing position(), performing any further sequence of
add_event / add_thread calls, and then calling set_position with that
position restores the builder to exactly its snapshot state, so its
finalized payload is byte-identical to that of a builder that never received
those appends (same client time). -/
theorem position_restore_discards_appends
    (r : AddEventsRequest) (buf : List Char) (p : Position) (g : Option Int)
    (ops : List BuilderOp)
    (hb : r.buffer = some buf) (hp : position r = Except.ok p) :
    ∃ q, setPosition (runOps r g ops).1 p = Except.ok q ∧ q = r ∧
      getPayload q = getPayload r := by
  rw [position.eq_def, hb] at hp
  simp only [Except.ok.injEq] at hp
  subst hp
  obtain ⟨ext, textra, H1, H2, H3, H4, H5⟩ := runOps_extends ops r g buf hb
  refine ⟨r, ?_, rfl, rfl⟩
  rcases hX : (runOps r g ops).1 with ⟨xct, xth, xbuf, xms, xcs, xea, xbd⟩
  rw [hX] at H1 H2 H3 H4 H5
  simp only at H1 H2 H3 H4 H5
  subst H1
  subst H2
  subst H3
  subst H4
  subst H5
  rw [setPosition.eq_def]
  simp only
  rw [if_pos (by simp)]
  rw [List.take_left, List.take_left, ← hb]

/-- Witness for C5: on the concrete sample builder, snapshotting, appending
one thread and one event and then restoring yields back exactly the sample
builder and the same finalized payload. -/
theorem position_restore_witness :
    ∃ q,
      setPosition
        (runOps sampleRequest none
          [BuilderOp.th "1" "w",
           BuilderOp.ev [( "msg", JValue.jstr "hello")] none 5]).1
        ⟨57, 0, 23, 0⟩ = Except.ok q ∧
      q = sampleRequest ∧ getPayload q = getPayload sampleRequest :=
  position_restore_discards_appends sampleRequest
    (chopBase (jserialize (JValue.jobj sampleBase))) ⟨57, 0, 23, 0⟩ none
    [BuilderOp.th "1" "w", BuilderOp.ev [( "msg", JValue.jstr "hello")] none 5]
    rfl rfl

/-- Claim C6: on a builder finalized by get_payload, set_client_time(t)
rewrites only the fixed-format closing suffix: the payload is the same
buffer bytes followed by the post fix, with the thread serialization
unchanged and only the client_time value now rendering t; a further
get_payload returns exactly that payload. -/
theorem set_client_time_rewrites_only_suffix
    (r : AddEventsRequest) (buf : List Char) (t : Int)
    (hb : r.buffer = some buf) (ho : r.body = none) :
    ∃ r1, getPayload r = Except.ok (buf ++ postFixOf r.threads r.clientTime, r1) ∧
      (setClientTime r1 t).body = some (buf ++ postFixOf r.threads t) ∧
      getPayload (setClientTime r1 t) =
        Except.ok (buf ++ postFixOf r.threads t, setClientTime r1 t) := by
  have h2 : (setClientTime
      { r with body := some (buf ++ postFixOf r.threads r.clientTime),
               buffer := none } t).body =
      some (buf ++ postFixOf r.threads t) := by
    rw [setClientTime.eq_def]
    simp only
    rw [List.length_append, Nat.add_sub_cancel, List.take_left]
  refine ⟨_, ?_, h2, ?_⟩
  · rw [getPayload.eq_def, ho, hb]
  · rw [getPayload.eq_def, h2]

/-- Witness for C6: finalizing the concrete sample builder and moving its
client time from 100 to 200 rewrites exactly the closing suffix. -/
theorem set_client_time_witness :
    ∃ r1,
      getPayload sampleRequest =
        Except.ok (chopBase (jserialize (JValue.jobj sampleBase)) ++
          postFixOf sampleRequest.threads sampleRequest.clientTime, r1) ∧
      (setClientTime r1 200).body =
        some (chopBase (jserialize (JValue.jobj sampleBase)) ++
          postFixOf sampleRequest.threads 200) ∧
      getPayload (setClientTime r1 200) =
        Except.ok (chopBase (jserialize (JValue.jobj sampleBase)) ++
          postFixOf sampleRequest.threads 200, setClientTime r1 200) :=
  set_client_time_rewrites_only_suffix sampleRequest
    (chopBase (jserialize (JValue.jobj sampleBase))) 200 rfl rfl
